import Mathlib

/-!
Shallow embedding of the clip-and-align worker pipeline
(`src/worker/worker.py`) of `param07/satellite-sensor-images-align`.

Python floating-point values are modelled as rationals (`ℚ`); NumPy
arrays as lists or index functions with explicit dimensions; Python
exceptions as `Except`/`Option`; external library calls (`rasterio.mask`,
`phase_cross_correlation`, Python's built-in `float`) as explicit
parameters of the embedded functions, so the theorems quantify over
every possible behaviour of the external call.
-/

namespace Worker

/-- The six coefficients (a,b,c,d,e,f) of an `affine.Affine` transform,
mapping pixel (col,row) to world (x,y):
x = a·col + b·row + c, y = d·col + e·row + f. -/
structure AffineT where
  a : ℚ
  b : ℚ
  c : ℚ
  d : ℚ
  e : ℚ
  f : ℚ
  deriving DecidableEq, Repr

/-- Raster metadata as carried in `src.meta` / `out_meta` dictionaries:
driver string, pixel dimensions, band count, dtype name, CRS name and the
georeferencing transform. -/
structure Meta where
  driver : String
  height : Nat
  width : Nat
  count : Nat
  dtype : String
  crs : String
  transform : AffineT
  deriving DecidableEq, Repr

/-- A 3-D in-memory raster buffer (band, row, col) with a dtype tag, as
produced by `rasterio.mask.mask` or `np.zeros`.  Values are total
functions; only indices below the dimensions are meaningful. -/
structure Buf3 where
  bands : Nat
  rows : Nat
  cols : Nat
  dtype : String
  val : Nat → Nat → Nat → ℚ

/-- Read-only view of an opened source raster (`rasterio.open(src_path)`):
band count, per-band dtypes, pixel dimensions, transform and `src.meta`. -/
structure SrcRaster where
  count : Nat
  dtypes : List String
  width : Nat
  height : Nat
  transform : AffineT
  meta : Meta

/-- Embedding of `clip_to_aoi` (worker.py lines 47-90), with the external
`rasterio.mask.mask(src, window_geom, crop=True, all_touched=True)` call
modelled by the parameter `maskRes`: `some (img, t)` is a successful mask
returning the cropped image and its transform, `none` is the `ValueError`
raised when the clip rectangle does not intersect the raster's extent.
On `none` the code builds `np.zeros((src.count, 1, 1), dtype=src.dtypes[0])`
and reuses `src.transform`; either way `out_meta` is `src.meta` updated
with driver "GTiff", the output shape and the output transform.
`bounds` is the resolved clip rectangle (left, bottom, right, top) in the
raster's CRS; in the source it is consumed only by the geometry handed to
the external mask call, so here it reaches no other expression. -/
def clip_to_aoi (src : SrcRaster) (bounds : ℚ × ℚ × ℚ × ℚ)
    (maskRes : Option (Buf3 × AffineT)) : Buf3 × Meta :=
  let out : Buf3 × AffineT :=
    match maskRes with
    | some r => r
    | none =>
        (⟨src.count, 1, 1, src.dtypes.headD "", fun _ _ _ => 0⟩, src.transform)
  let out_image := out.1
  let out_transform := out.2
  let out_meta : Meta :=
    { src.meta with
        driver := "GTiff"
        height := out_image.rows
        width := out_image.cols
        transform := out_transform }
  (out_image, out_meta)

/-- Embedding of `apply_translation_and_write` (worker.py lines 133-159),
modelling the
written file as the returned pair (metadata, bands written unchanged).
The transform update is exactly the source's:
`pixel_width = transform.a`, `pixel_height = -transform.e`,
`world_dx = shift_x * pixel_width`, `world_dy = -shift_y * pixel_height`,
new transform `Affine(a, b, c + world_dx, d, e, f + world_dy)`. -/
def apply_translation_and_write (moving_img : Buf3) (moving_meta : Meta)
    (shift : ℚ × ℚ) : Meta × Buf3 :=
  let shift_y := shift.1
  let shift_x := shift.2
  let transform := moving_meta.transform
  let pixel_width := transform.a
  let pixel_height := -transform.e
  let world_dx := shift_x * pixel_width
  let world_dy := -shift_y * pixel_height
  let new_transform : AffineT :=
    ⟨transform.a, transform.b, transform.c + world_dx,
     transform.d, transform.e, transform.f + world_dy⟩
  let out_meta : Meta := { moving_meta with transform := new_transform }
  (out_meta, moving_img)

/-- Minimum of a list of rationals, as `np.nanmin` on a non-empty array
without NaNs (worker.py has no NaN source in scope; `nanmin` on finite
data is the plain minimum).  Empty list yields 0 (in Python this case
raises; no claim depends on it). -/
def listMin : List ℚ → ℚ
  | [] => 0
  | x :: xs => xs.foldl min x

/-- Maximum of a list of rationals, as `np.nanmax` on finite data. -/
def listMax : List ℚ → ℚ
  | [] => 0
  | x :: xs => xs.foldl max x

/-- Truncation of a rational toward zero, the rounding used by a NumPy
float-to-integer `astype` cast. -/
def ratTrunc (q : ℚ) : ℤ :=
  if 0 ≤ q then ⌊q⌋ else ⌈q⌉

/-- The cast `astype("uint8")` on a float value: truncate toward zero, wrap
modulo 256. -/
def toU8 (q : ℚ) : ℕ :=
  ((ratTrunc q) % 256).toNat

/-- Embedding of `normalize_bands` (worker.py lines 161-170).  Each band
(modelled as
the list of its pixel values) is rescaled by
`255 * (band - bmin) / (bmax - bmin)` when `bmax > bmin` and left
unchanged otherwise; the whole array is then cast to uint8. -/
def normalize_bands (data : List (List ℚ)) : List (List ℕ) :=
  data.map fun band =>
    let bmin := listMin band
    let bmax := listMax band
    let band' :=
      if bmax > bmin then
        band.map fun x => 255 * (x - bmin) / (bmax - bmin)
      else band
    band'.map toU8

/-- A 2-D single-band image with explicit dimensions; values at indices
beyond the dimensions are irrelevant. -/
structure Img where
  rows : Nat
  cols : Nat
  val : Nat → Nat → ℚ

/-- All pixel values of an image, row-major. -/
def imgVals (a : Img) : List ℚ :=
  (List.range a.rows).flatMap fun i =>
    (List.range a.cols).map fun j => a.val i j

/-- The inner `norm` helper of `compute_translation` (worker.py lines
109-114): subtract the minimum, then divide by the new maximum when it is
positive. -/
def normImg (a : Img) : Img :=
  let m := listMin (imgVals a)
  let shifted : Img := ⟨a.rows, a.cols, fun i j => a.val i j - m⟩
  let mx := listMax (imgVals shifted)
  if mx > 0 then ⟨a.rows, a.cols, fun i j => shifted.val i j / mx⟩
  else shifted

/-- Zero-padding of an image into an `r × c` canvas, top/left aligned:
`new = np.zeros(...); new[:a.rows, :a.cols] = a` (worker.py lines
123-126). -/
def padTo (a : Img) (r c : Nat) : Img :=
  ⟨r, c, fun i j => if i < a.rows ∧ j < a.cols then a.val i j else 0⟩

/-- The shape-equalisation step of `compute_translation` (worker.py lines
119-127): images of equal shape pass through unchanged, otherwise both
are zero-padded into the element-wise maximum shape. -/
def padPair (a b : Img) : Img × Img :=
  if a.rows = b.rows ∧ a.cols = b.cols then (a, b)
  else
    let maxr := max a.rows b.rows
    let maxc := max a.cols b.cols
    (padTo a maxr maxc, padTo b maxr maxc)

/-- First band of a 3-D buffer, as `arr[0].astype(np.float32)` in
`compute_translation` (the dtype cast is value-preserving in this
model). -/
def firstBand (b : Buf3) : Img :=
  ⟨b.rows, b.cols, fun i j => b.val 0 i j⟩

/-- Embedding of `compute_translation` (worker.py lines 93-131), with the
external
`skimage.registration.phase_cross_correlation` call modelled by the
parameter `pcc`, which returns the triple (shift, error, diffphase) on
the two preprocessed images.  The source keeps only the first component:
`shift, error, diffphase = phase_cross_correlation(...); return shift`. -/
def compute_translation (pcc : Img → Img → (ℚ × ℚ) × ℚ × ℚ)
    (reference_arr moving_arr : Buf3) : ℚ × ℚ :=
  let ref := firstBand reference_arr
  let mov := firstBand moving_arr
  let refn := normImg ref
  let movn := normImg mov
  let p := padPair refn movn
  (pcc p.1 p.2).1

/-- Python `str.split(sep)` for a single separator character, on strings
modelled as character lists: `"".split(';') = [""]`,
`"a;;b".split(';') = ["a","","b"]`. -/
def pySplit (sep : Char) : List Char → List (List Char)
  | [] => [[]]
  | c :: rest =>
      let r := pySplit sep rest
      if c = sep then [] :: r
      else
        match r with
        | [] => [[c]]
        | t :: ts => (c :: t) :: ts

/-- Python `str.strip()`: drop leading and trailing whitespace. -/
def pyStrip (s : List Char) : List Char :=
  ((s.dropWhile Char.isWhitespace).reverse.dropWhile Char.isWhitespace).reverse

/-- Python dict assignment `d[k] = v` on an insertion-ordered association
list: overwrite in place when the key exists, append otherwise. -/
def dictSet (d : List (List Char × ℚ)) (k : List Char) (v : ℚ) :
    List (List Char × ℚ) :=
  match d with
  | [] => [(k, v)]
  | (k', v') :: rest =>
      if k' = k then (k', v) :: rest else (k', v') :: dictSet rest k v

/-- The loop body of `parse_aoi` over the `';'`-separated tokens: skip
empty tokens; `k, v = kv.split('=')` fails (ValueError) unless the token
splits into exactly two parts; `float(v)` — modelled by the parameter
`pf`, `none` meaning ValueError — fails on an unparseable value;
otherwise `parts[k.strip()] = float(v)`. -/
def parseAoiTokens (pf : List Char → Option ℚ) :
    List (List Char) → List (List Char × ℚ) →
    Except Unit (List (List Char × ℚ))
  | [], parts => .ok parts
  | kv :: rest, parts =>
      if kv = [] then parseAoiTokens pf rest parts
      else
        match pySplit '=' kv with
        | [k, v] =>
            match pf v with
            | some q => parseAoiTokens pf rest (dictSet parts (pyStrip k) q)
            | none => .error ()
        | _ => .error ()

/-- Embedding of `parse_aoi` (worker.py lines 38-45): split the AOI string
on `';'`
and fold the `key=value` tokens into a dict.  Any ValueError raised in
the loop (tuple-unpack of `kv.split('=')`, or `float(v)`) propagates as
`.error ()`. -/
def parse_aoi (pf : List Char → Option ℚ) (s : List Char) :
    Except Unit (List (List Char × ℚ)) :=
  parseAoiTokens pf (pySplit ';' s) []

/-- Value of one decimal digit character. -/
def digitVal (c : Char) : Option ℕ :=
  if c.isDigit then some (c.toNat - Char.toNat '0') else none

/-- Natural number denoted by a non-empty list of decimal digits. -/
def digitsVal : List Char → Option ℕ
  | [] => none
  | [c] => digitVal c
  | c :: rest =>
      match digitVal c, digitsVal rest with
      | some d, some n => some (d * 10 ^ rest.length + n)
      | _, _ => none

/-- Python's built-in `float` on plain decimal literals (optional sign,
digits, optional fractional part), after stripping whitespace; exotic
accepted forms (exponents, `inf`, `nan`, underscores) are omitted — the
embedded `parse_aoi` takes the float parser as a parameter, and this
concrete instance only feeds witnesses and counterexamples. -/
def pyFloat (s : List Char) : Option ℚ :=
  let s := pyStrip s
  let core : List Char × ℚ :=
    match s with
    | '-' :: r => (r, -1)
    | '+' :: r => (r, 1)
    | _ => (s, 1)
  let body := core.1
  let sign := core.2
  match pySplit '.' body with
  | [ip] =>
      match digitsVal ip with
      | some n => some (sign * n)
      | none => none
  | [ip, fp] =>
      if ip = [] ∧ fp = [] then none
      else
        let ipv : Option ℕ := if ip = [] then some 0 else digitsVal ip
        let fpv : Option ℕ := if fp = [] then some 0 else digitsVal fp
        match ipv, fpv with
        | some n, some m => some (sign * (n + (m : ℚ) / 10 ^ fp.length))
        | _, _ => none
  | _ => none

/-- Observable events of one run of `main` (worker.py lines 172-243):
progress emissions, the pipeline stage actions between them, and the
final `sys.exit` code. -/
inductive Ev where
  | progress (p : ℕ)
  | parseAoi
  | clipA
  | writeA
  | reprojectBounds
  | clipB
  | writeB
  | computeTranslation
  | normalizeB
  | applyWriteB
  | exit (code : ℕ)
  deriving DecidableEq, Repr

/-- The event sequence of the `try:` body of `main` when every stage
succeeds, in source order (worker.py lines 186-236), without the final
`sys.exit(0)`. -/
def successActs : List Ev :=
  [Ev.progress 5, Ev.parseAoi, Ev.clipA, Ev.writeA, Ev.progress 25,
   Ev.reprojectBounds, Ev.clipB, Ev.writeB, Ev.progress 45,
   Ev.computeTranslation, Ev.progress 65, Ev.normalizeB, Ev.applyWriteB,
   Ev.progress 90, Ev.progress 100]

/-- The event trace of one run of `main`.  `none` is a run in which every
stage succeeds: the `try:` body runs to completion and `sys.exit(0)` is
reached.  `some k` is a run whose first exception is raised after the
first `k` events of the body: the `except` handler (worker.py lines
238-243) then emits the 100 milestone and calls `sys.exit(1)`. -/
def mainTrace : Option ℕ → List Ev
  | none => successActs ++ [Ev.exit 0]
  | some k => successActs.take k ++ [Ev.progress 100, Ev.exit 1]

/-- The progress milestones of a trace, in emission order. -/
def progressOf (t : List Ev) : List ℕ :=
  t.filterMap fun e =>
    match e with
    | Ev.progress p => some p
    | _ => none

/-- The exit codes of a trace (each run has exactly one). -/
def exitCodesOf (t : List Ev) : List ℕ :=
  t.filterMap fun e =>
    match e with
    | Ev.exit c => some c
    | _ => none

/-- The key `north` as a character list. -/
def kNorth : List Char := ['n', 'o', 'r', 't', 'h']

/-- The key `south` as a character list. -/
def kSouth : List Char := ['s', 'o', 'u', 't', 'h']

/-- The key `east` as a character list. -/
def kEast : List Char := ['e', 'a', 's', 't']

/-- The key `west` as a character list. -/
def kWest : List Char := ['w', 'e', 's', 't']

/-- The canonical AOI string `north=v1;south=v2;east=v3;west=v4`. -/
def aoiString (v1 v2 v3 v4 : List Char) : List Char :=
  (kNorth ++ '=' :: v1) ++ ';' ::
    ((kSouth ++ '=' :: v2) ++ ';' ::
      ((kEast ++ '=' :: v3) ++ ';' :: (kWest ++ '=' :: v4)))

/-- A token is rejected by the `parse_aoi` loop under float parser `pf`:
whenever it splits as `key=value`, the value does not parse (tokens that
do not split into exactly two parts are rejected unconditionally, making
the hypothesis vacuous there). -/
def badToken (pf : List Char → Option ℚ) (kv : List Char) : Prop :=
  ∀ k v, pySplit '=' kv = [k, v] → pf v = none

/-- Sample transform of a north-up raster (e < 0). -/
def sampleTransform : AffineT := ⟨1/2, 0, 100, 0, -1/2, 200⟩

/-- Sample metadata of a two-band raster. -/
def sampleMeta : Meta := ⟨"GTiff", 8, 10, 2, "uint16", "EPSG:32633", sampleTransform⟩

/-- Sample source raster. -/
def sampleSrc : SrcRaster := ⟨2, ["uint16", "uint16"], 10, 8, sampleTransform, sampleMeta⟩

/-- Sample 1-band 1x1 buffer. -/
def sampleBuf : Buf3 := ⟨1, 1, 1, "uint8", fun _ _ _ => 1⟩

/-- Metadata whose transform has a positive row-scale coefficient
(e = 1 > 0, a south-up raster). -/
def flippedMeta : Meta := ⟨"GTiff", 1, 1, 1, "uint8", "EPSG:4326", ⟨1, 0, 0, 0, 1, 0⟩⟩

/-- A phase-correlation stub reporting shift (3, 4) with error 0. -/
def pccErrZero : Img → Img → (ℚ × ℚ) × ℚ × ℚ := fun _ _ => ((3, 4), 0, 0)

/-- A phase-correlation stub reporting shift (3, 4) with error 1. -/
def pccErrOne : Img → Img → (ℚ × ℚ) × ℚ × ℚ := fun _ _ => ((3, 4), 1, 0)

/-- Sample 2x3 image. -/
def sampleImgA : Img := ⟨2, 3, fun i j => (i : ℚ) + j⟩

/-- Sample 1x2 image. -/
def sampleImgB : Img := ⟨1, 2, fun i j => (i : ℚ) * 2 + j⟩

end Worker

namespace Worker

/-- On non-empty lists `headD` agrees with `head`. -/
theorem headD_eq_head {α : Type} (l : List α) (d : α) (h : l ≠ []) :
    l.headD d = l.head h := by
  cases l with
  | nil => exact absurd rfl h
  | cons x xs => rfl

/-- C9: applying the Transform Composer with the zero shift
(shift_row = 0, shift_column = 0) returns the input metadata — in
particular a transform identical to the input transform — and the image
unchanged. -/
theorem apply_translation_zero_shift (img : Buf3) (meta : Meta) :
    apply_translation_and_write img meta (0, 0) = (meta, img) := by
  cases meta with
  | mk driver height width count dtype crs transform =>
    cases transform
    simp [apply_translation_and_write]

/-- C1 counterexample: for a transform with e = 1 > 0, f = 0 and
shift_row = 1, the code produces f' = f + shift_row·e = 1, while the
claim (f' = f − shift_row × |e|) demands −1. -/
theorem apply_translation_magnitude_cex :
    (apply_translation_and_write sampleBuf flippedMeta (1, 0)).1.transform.f ≠
      flippedMeta.transform.f - 1 * |flippedMeta.transform.e| := by
  norm_num [apply_translation_and_write, flippedMeta]

/-- C1 (amended): the Transform Composer preserves coefficients a, b, d,
e; c becomes c + shift_column × pixel_width with pixel_width = a; and f
becomes f − shift_row × pixel_height where pixel_height is the NEGATION
of the e coefficient (equal to its magnitude only for e ≤ 0). -/
theorem apply_translation_coeffs (img : Buf3) (meta : Meta) (sy sx : ℚ) :
    (apply_translation_and_write img meta (sy, sx)).1.transform.a =
        meta.transform.a ∧
    (apply_translation_and_write img meta (sy, sx)).1.transform.b =
        meta.transform.b ∧
    (apply_translation_and_write img meta (sy, sx)).1.transform.d =
        meta.transform.d ∧
    (apply_translation_and_write img meta (sy, sx)).1.transform.e =
        meta.transform.e ∧
    (apply_translation_and_write img meta (sy, sx)).1.transform.c =
        meta.transform.c + sx * meta.transform.a ∧
    (apply_translation_and_write img meta (sy, sx)).1.transform.f =
        meta.transform.f - sy * (-meta.transform.e) := by
  cases meta with
  | mk driver height width count dtype crs transform =>
    cases transform
    refine ⟨rfl, rfl, rfl, rfl, rfl, ?_⟩
    simp [apply_translation_and_write]

/-- C2: when the clip rectangle does not intersect the raster's extent
(the mask call raises), the Raster Clipper returns, rather than raising,
a (band_count, 1, 1) buffer of zeros whose band count and dtype are the
source raster's, with metadata height and width both 1. -/
theorem clip_to_aoi_no_overlap (src : SrcRaster) (bounds : ℚ × ℚ × ℚ × ℚ)
    (h : src.dtypes ≠ []) :
    (clip_to_aoi src bounds none).1.bands = src.count ∧
    (clip_to_aoi src bounds none).1.rows = 1 ∧
    (clip_to_aoi src bounds none).1.cols = 1 ∧
    (∀ b i j, (clip_to_aoi src bounds none).1.val b i j = 0) ∧
    (clip_to_aoi src bounds none).1.dtype = src.dtypes.head h ∧
    (clip_to_aoi src bounds none).2.height = 1 ∧
    (clip_to_aoi src bounds none).2.width = 1 :=
  ⟨rfl, rfl, rfl, fun _ _ _ => rfl, headD_eq_head _ _ h, rfl, rfl⟩

/-- C2 witness at the concrete sample raster. -/
theorem clip_to_aoi_no_overlap_witness :
    (clip_to_aoi sampleSrc (0, 0, 0, 0) none).1.bands = sampleSrc.count ∧
    (clip_to_aoi sampleSrc (0, 0, 0, 0) none).1.rows = 1 ∧
    (clip_to_aoi sampleSrc (0, 0, 0, 0) none).1.cols = 1 ∧
    (∀ b i j, (clip_to_aoi sampleSrc (0, 0, 0, 0) none).1.val b i j = 0) ∧
    (clip_to_aoi sampleSrc (0, 0, 0, 0) none).1.dtype =
        sampleSrc.dtypes.head (by decide) ∧
    (clip_to_aoi sampleSrc (0, 0, 0, 0) none).2.height = 1 ∧
    (clip_to_aoi sampleSrc (0, 0, 0, 0) none).2.width = 1 :=
  clip_to_aoi_no_overlap sampleSrc (0, 0, 0, 0) (by decide)

/-- C10: the degenerate no-overlap buffer keeps the source raster's
affine transform in its metadata, independently of the requested clip
rectangle, and its dtype is the dtype of the raster's first band. -/
theorem clip_to_aoi_no_overlap_georef (src : SrcRaster)
    (b b' : ℚ × ℚ × ℚ × ℚ) (h : src.dtypes ≠ []) :
    (clip_to_aoi src b none).2.transform = src.transform ∧
    (clip_to_aoi src b none).1.dtype = src.dtypes.head h ∧
    clip_to_aoi src b none = clip_to_aoi src b' none :=
  ⟨rfl, headD_eq_head _ _ h, rfl⟩

/-- C10 witness at the concrete sample raster and two distinct
rectangles. -/
theorem clip_to_aoi_no_overlap_georef_witness :
    (clip_to_aoi sampleSrc (0, 0, 0, 0) none).2.transform =
        sampleSrc.transform ∧
    (clip_to_aoi sampleSrc (0, 0, 0, 0) none).1.dtype =
        sampleSrc.dtypes.head (by decide) ∧
    clip_to_aoi sampleSrc (0, 0, 0, 0) none =
      clip_to_aoi sampleSrc (1, 2, 3, 4) none :=
  clip_to_aoi_no_overlap_georef sampleSrc (0, 0, 0, 0) (1, 2, 3, 4)
    (by decide)

/-- Folding `min` over a list never exceeds the initial accumulator. -/
theorem foldl_min_le_init (l : List ℚ) (acc : ℚ) : l.foldl min acc ≤ acc := by
  induction l generalizing acc with
  | nil => exact le_refl _
  | cons x xs ih => exact le_trans (ih (min acc x)) (min_le_left _ _)

/-- Folding `min` over a list is a lower bound of its members. -/
theorem foldl_min_le_mem (l : List ℚ) (acc : ℚ) {x : ℚ} (hx : x ∈ l) :
    l.foldl min acc ≤ x := by
  induction l generalizing acc with
  | nil => cases hx
  | cons y ys ih =>
      rcases List.mem_cons.mp hx with rfl | hmem
      · exact le_trans (foldl_min_le_init ys (min acc x)) (min_le_right _ _)
      · exact ih (min acc y) hmem

/-- Folding `max` over a list is at least the initial accumulator. -/
theorem init_le_foldl_max (l : List ℚ) (acc : ℚ) : acc ≤ l.foldl max acc := by
  induction l generalizing acc with
  | nil => exact le_refl _
  | cons x xs ih => exact le_trans (le_max_left _ _) (ih (max acc x))

/-- Folding `max` over a list is an upper bound of its members. -/
theorem mem_le_foldl_max (l : List ℚ) (acc : ℚ) {x : ℚ} (hx : x ∈ l) :
    x ≤ l.foldl max acc := by
  induction l generalizing acc with
  | nil => cases hx
  | cons y ys ih =>
      rcases List.mem_cons.mp hx with rfl | hmem
      · exact le_trans (le_max_right _ _) (init_le_foldl_max ys (max acc x))
      · exact ih (max acc y) hmem

/-- The value `listMin` is a lower bound of the list's members. -/
theorem listMin_le_mem {l : List ℚ} {x : ℚ} (hx : x ∈ l) : listMin l ≤ x := by
  cases l with
  | nil => cases hx
  | cons y ys =>
      rcases List.mem_cons.mp hx with rfl | hmem
      · exact foldl_min_le_init ys x
      · exact foldl_min_le_mem ys y hmem

/-- The value `listMax` is an upper bound of the list's members. -/
theorem mem_le_listMax {l : List ℚ} {x : ℚ} (hx : x ∈ l) : x ≤ listMax l := by
  cases l with
  | nil => cases hx
  | cons y ys =>
      rcases List.mem_cons.mp hx with rfl | hmem
      · exact init_le_foldl_max ys x
      · exact mem_le_foldl_max ys y hmem

/-- The uint8 cast always lands below 256. -/
theorem toU8_lt (q : ℚ) : toU8 q < 256 := by
  unfold toU8
  have h1 : (0 : ℤ) ≤ ratTrunc q % 256 := Int.emod_nonneg _ (by norm_num)
  have h2 : ratTrunc q % 256 < 256 := Int.emod_lt_of_pos _ (by norm_num)
  omega

/-- C3 counterexample: a constant band of value 7 (max = min) is left at
7 by `normalize_bands`, not at 0 as the claim states. -/
theorem normalize_bands_constant_cex :
    listMax [(7 : ℚ), 7] = listMin [(7 : ℚ), 7] ∧
    normalize_bands [[7, 7]] = [[7, 7]] ∧ (7 : ℕ) ≠ 0 := by
  refine ⟨by norm_num [listMin, listMax], ?_, by norm_num⟩
  norm_num [normalize_bands, listMin, listMax, toU8, ratTrunc]
  decide

/-- C3 (amended): each band is rescaled independently by
255·(x − bmin)/(bmax − bmin) using its own minimum and maximum and cast
to 8-bit (the rescaled value lies in [0,255] and the output below 256);
a band whose maximum equals its minimum is left unchanged (each pixel
cast to uint8), not set to 0. -/
theorem normalize_bands_amended (data : List (List ℚ)) (i j : ℕ)
    (hi : i < data.length) (hj : j < (data.getD i []).length) :
    ((normalize_bands data).getD i []).getD j 0 =
      toU8 (if listMin (data.getD i []) < listMax (data.getD i []) then
              255 * ((data.getD i []).getD j 0 - listMin (data.getD i [])) /
                (listMax (data.getD i []) - listMin (data.getD i []))
            else (data.getD i []).getD j 0) ∧
    ((normalize_bands data).getD i []).getD j 0 < 256 ∧
    (listMin (data.getD i []) < listMax (data.getD i []) →
      0 ≤ 255 * ((data.getD i []).getD j 0 - listMin (data.getD i [])) /
            (listMax (data.getD i []) - listMin (data.getD i [])) ∧
      255 * ((data.getD i []).getD j 0 - listMin (data.getD i [])) /
            (listMax (data.getD i []) - listMin (data.getD i [])) ≤ 255) := by
  have hlen : i < (normalize_bands data).length := by
    simpa [normalize_bands] using hi
  have houter : (normalize_bands data).getD i [] =
      (if listMax (data.getD i []) > listMin (data.getD i []) then
          (data.getD i []).map fun x =>
            255 * (x - listMin (data.getD i [])) /
              (listMax (data.getD i []) - listMin (data.getD i []))
        else data.getD i []).map toU8 := by
    rw [List.getD_eq_getElem _ _ hlen]
    unfold normalize_bands
    rw [List.getElem_map, List.getD_eq_getElem _ _ hi]
  have hmain : ((normalize_bands data).getD i []).getD j 0 =
      toU8 (if listMin (data.getD i []) < listMax (data.getD i []) then
              255 * ((data.getD i []).getD j 0 - listMin (data.getD i [])) /
                (listMax (data.getD i []) - listMin (data.getD i []))
            else (data.getD i []).getD j 0) := by
    rw [houter]
    by_cases hc : listMin (data.getD i []) < listMax (data.getD i [])
    · rw [if_pos hc, if_pos hc]
      have hj' : j < ((data.getD i []).map fun x =>
          255 * (x - listMin (data.getD i [])) /
            (listMax (data.getD i []) - listMin (data.getD i []))).length := by
        simpa using hj
      rw [List.getD_eq_getElem _ _ (by simpa using hj'), List.getElem_map,
        List.getElem_map, List.getD_eq_getElem _ _ hj]
    · rw [if_neg hc, if_neg hc]
      rw [List.getD_eq_getElem _ _ (by simpa using hj), List.getElem_map,
        List.getD_eq_getElem _ _ hj]
  refine ⟨hmain, by rw [hmain]; exact toU8_lt _, ?_⟩
  intro hlt
  have hmem : (data.getD i []).getD j 0 ∈ data.getD i [] := by
    rw [List.getD_eq_getElem _ _ hj]
    exact List.getElem_mem hj
  have hmin := listMin_le_mem hmem
  have hmax := mem_le_listMax hmem
  have hpos : 0 < listMax (data.getD i []) - listMin (data.getD i []) := by
    linarith
  constructor
  · exact div_nonneg (by linarith) hpos.le
  · rw [div_le_iff₀ hpos]
    linarith

/-- C3 witness: the band [1, 3] has min 1 and max 3; pixel 1 (value 3)
rescales to 255 and the bounds hold. -/
theorem normalize_bands_amended_witness :
    ((normalize_bands [[1, 3]]).getD 0 []).getD 1 0 =
      toU8 (if listMin ([[(1 : ℚ), 3]].getD 0 []) <
              listMax ([[(1 : ℚ), 3]].getD 0 []) then
              255 * (([[(1 : ℚ), 3]].getD 0 []).getD 1 0 -
                  listMin ([[(1 : ℚ), 3]].getD 0 [])) /
                (listMax ([[(1 : ℚ), 3]].getD 0 []) -
                  listMin ([[(1 : ℚ), 3]].getD 0 []))
            else ([[(1 : ℚ), 3]].getD 0 []).getD 1 0) ∧
    ((normalize_bands [[1, 3]]).getD 0 []).getD 1 0 < 256 ∧
    (listMin ([[(1 : ℚ), 3]].getD 0 []) < listMax ([[(1 : ℚ), 3]].getD 0 []) →
      0 ≤ 255 * (([[(1 : ℚ), 3]].getD 0 []).getD 1 0 -
            listMin ([[(1 : ℚ), 3]].getD 0 [])) /
          (listMax ([[(1 : ℚ), 3]].getD 0 []) -
            listMin ([[(1 : ℚ), 3]].getD 0 [])) ∧
      255 * (([[(1 : ℚ), 3]].getD 0 []).getD 1 0 -
            listMin ([[(1 : ℚ), 3]].getD 0 [])) /
          (listMax ([[(1 : ℚ), 3]].getD 0 []) -
            listMin ([[(1 : ℚ), 3]].getD 0 [])) ≤ 255) :=
  normalize_bands_amended [[1, 3]] 0 1 (by norm_num) (by norm_num)

/-- C7: the estimator's preprocessing preserves image shape through
normalisation, passes equal-shape image pairs through the padding step
unchanged, and zero-pads differing-shape pairs top/left-aligned into the
element-wise maximum shape: inside the original index range the padded
image equals its input, outside it is 0. -/
theorem compute_translation_padding (a b : Img) :
    ((normImg a).rows = a.rows ∧ (normImg a).cols = a.cols) ∧
    (a.rows = b.rows ∧ a.cols = b.cols → padPair a b = (a, b)) ∧
    (¬(a.rows = b.rows ∧ a.cols = b.cols) →
      (padPair a b).1.rows = max a.rows b.rows ∧
      (padPair a b).1.cols = max a.cols b.cols ∧
      (padPair a b).2.rows = max a.rows b.rows ∧
      (padPair a b).2.cols = max a.cols b.cols ∧
      (∀ i j, i < a.rows → j < a.cols → (padPair a b).1.val i j = a.val i j) ∧
      (∀ i j, ¬(i < a.rows ∧ j < a.cols) → (padPair a b).1.val i j = 0) ∧
      (∀ i j, i < b.rows → j < b.cols → (padPair a b).2.val i j = b.val i j) ∧
      (∀ i j, ¬(i < b.rows ∧ j < b.cols) → (padPair a b).2.val i j = 0)) := by
  refine ⟨⟨?_, ?_⟩, ?_, ?_⟩
  · unfold normImg
    dsimp only
    split <;> rfl
  · unfold normImg
    dsimp only
    split <;> rfl
  · intro h
    unfold padPair
    rw [if_pos h]
  · intro h
    unfold padPair
    rw [if_neg h]
    refine ⟨rfl, rfl, rfl, rfl, ?_, ?_, ?_, ?_⟩
    · intro i j hi hj
      simp only [padTo]
      rw [if_pos ⟨hi, hj⟩]
    · intro i j hij
      simp only [padTo]
      rw [if_neg hij]
    · intro i j hi hj
      simp only [padTo]
      rw [if_pos ⟨hi, hj⟩]
    · intro i j hij
      simp only [padTo]
      rw [if_neg hij]

/-- C7 witness: the equal-shape branch at the 2x3 sample image against
itself, and the padding branch at the 2x3 and 1x2 sample images. -/
theorem compute_translation_padding_witness :
    (padPair sampleImgA sampleImgA = (sampleImgA, sampleImgA)) ∧
    ((padPair sampleImgA sampleImgB).1.rows =
        max sampleImgA.rows sampleImgB.rows ∧
      (padPair sampleImgA sampleImgB).1.cols =
        max sampleImgA.cols sampleImgB.cols ∧
      (padPair sampleImgA sampleImgB).2.rows =
        max sampleImgA.rows sampleImgB.rows ∧
      (padPair sampleImgA sampleImgB).2.cols =
        max sampleImgA.cols sampleImgB.cols ∧
      (∀ i j, i < sampleImgA.rows → j < sampleImgA.cols →
        (padPair sampleImgA sampleImgB).1.val i j = sampleImgA.val i j) ∧
      (∀ i j, ¬(i < sampleImgA.rows ∧ j < sampleImgA.cols) →
        (padPair sampleImgA sampleImgB).1.val i j = 0) ∧
      (∀ i j, i < sampleImgB.rows → j < sampleImgB.cols →
        (padPair sampleImgA sampleImgB).2.val i j = sampleImgB.val i j) ∧
      (∀ i j, ¬(i < sampleImgB.rows ∧ j < sampleImgB.cols) →
        (padPair sampleImgA sampleImgB).2.val i j = 0)) :=
  ⟨(compute_translation_padding sampleImgA sampleImgA).2.1 ⟨rfl, rfl⟩,
   (compute_translation_padding sampleImgA sampleImgB).2.2 (by decide)⟩

/-- C5 counterexample: two correlation back-ends that agree on the shift
(3, 4) but report different error scalars (0 and 1) produce identical
results of `compute_translation` — the error scalar is discarded, not
returned to the caller (the claim that both are returned is false). -/
theorem compute_translation_error_cex :
    compute_translation pccErrZero sampleBuf sampleBuf = (3, 4) ∧
    compute_translation pccErrOne sampleBuf sampleBuf =
      compute_translation pccErrZero sampleBuf sampleBuf ∧
    (pccErrZero (firstBand sampleBuf) (firstBand sampleBuf)).2.1 ≠
      (pccErrOne (firstBand sampleBuf) (firstBand sampleBuf)).2.1 := by
  refine ⟨rfl, rfl, by norm_num [pccErrZero, pccErrOne]⟩

/-- C5 (amended): `compute_translation` returns only the estimated shift
vector; its result is unchanged by any modification of the error and
phase components reported by the correlation call. -/
theorem compute_translation_shift_only
    (pcc pcc' : Img → Img → (ℚ × ℚ) × ℚ × ℚ) (ref mov : Buf3)
    (h : ∀ x y, (pcc x y).1 = (pcc' x y).1) :
    compute_translation pcc ref mov = compute_translation pcc' ref mov := by
  unfold compute_translation
  exact h _ _

/-- C5 witness at the two concrete correlation stubs. -/
theorem compute_translation_shift_only_witness :
    compute_translation pccErrZero sampleBuf sampleBuf =
      compute_translation pccErrOne sampleBuf sampleBuf :=
  compute_translation_shift_only pccErrZero pccErrOne sampleBuf sampleBuf
    fun _ _ => rfl

/-- C6 counterexample: in the successful pipeline run both events occur,
but the Band Normalizer is NOT applied to B before the Translation
Estimator runs — the estimator event strictly precedes the
normalisation event, so the shift is computed from the un-normalised
buffer. -/
theorem main_normalize_order_cex :
    Ev.normalizeB ∈ mainTrace none ∧
    Ev.computeTranslation ∈ mainTrace none ∧
    ¬ (mainTrace none).indexOf Ev.normalizeB <
        (mainTrace none).indexOf Ev.computeTranslation := by
  decide

/-- C6 (amended): in the successful pipeline run the Translation
Estimator is invoked on the clipped buffers before the Band Normalizer
is applied to B's buffer; normalisation happens between shift estimation
and the final aligned write. -/
theorem main_estimate_before_normalize :
    (mainTrace none).indexOf Ev.computeTranslation <
      (mainTrace none).indexOf Ev.normalizeB ∧
    (mainTrace none).indexOf Ev.normalizeB <
      (mainTrace none).indexOf Ev.applyWriteB := by
  decide

/-- Splitting a list that does not contain the separator yields the
whole list as the only part. -/
theorem pySplit_no_sep {sep : Char} {l : List Char} (h : sep ∉ l) :
    pySplit sep l = [l] := by
  induction l with
  | nil => rfl
  | cons c rest ih =>
      have hc : ¬ c = sep := fun hh => h (by simp [hh])
      have hrest : sep ∉ rest := fun hm => h (List.mem_cons_of_mem c hm)
      unfold pySplit
      dsimp only
      rw [if_neg hc, ih hrest]

/-- Splitting peels off a separator-free leading part. -/
theorem pySplit_append_cons {sep : Char} {a : List Char} (b : List Char)
    (h : sep ∉ a) :
    pySplit sep (a ++ sep :: b) = a :: pySplit sep b := by
  induction a with
  | nil =>
      show (if sep = sep then [] :: pySplit sep b
            else
              match pySplit sep b with
              | [] => [[sep]]
              | t :: ts => (sep :: t) :: ts) = [] :: pySplit sep b
      rw [if_pos rfl]
  | cons c a' ih =>
      have hc : ¬ c = sep := fun hh => h (by simp [hh])
      have ha' : sep ∉ a' := fun hm => h (List.mem_cons_of_mem c hm)
      show (if c = sep then [] :: pySplit sep (a' ++ sep :: b)
            else
              match pySplit sep (a' ++ sep :: b) with
              | [] => [[c]]
              | t :: ts => (c :: t) :: ts) = (c :: a') :: pySplit sep b
      rw [if_neg hc, ih ha']

/-- A character missing from the key and value of a `key=value` token is
missing from the whole token. -/
theorem not_mem_token {c : Char} {k v : List Char} (hk : c ∉ k)
    (hne : ¬ c = '=') (hv : c ∉ v) : c ∉ (k ++ '=' :: v) := by
  intro hmem
  rcases List.mem_append.mp hmem with h | h
  · exact hk h
  · rcases List.mem_cons.mp h with h | h
    · exact hne h
    · exact hv h

/-- One successful step of the `parse_aoi` loop on a well-formed
`key=value` token. -/
theorem parseAoiTokens_cons_ok (pf : List Char → Option ℚ)
    (k v : List Char) (q : ℚ) (rest : List (List Char))
    (parts : List (List Char × ℚ)) (hk : '=' ∉ k) (hv : '=' ∉ v)
    (hq : pf v = some q) :
    parseAoiTokens pf ((k ++ '=' :: v) :: rest) parts =
      parseAoiTokens pf rest (dictSet parts (pyStrip k) q) := by
  have hne : ¬ (k ++ '=' :: v) = [] := by simp
  have hsplit : pySplit '=' (k ++ '=' :: v) = [k, v] := by
    rw [pySplit_append_cons _ hk, pySplit_no_sep hv]
  simp only [parseAoiTokens]
  rw [if_neg hne, hsplit]
  dsimp only
  rw [hq]

/-- The `parse_aoi` loop raises (propagates ValueError) whenever some
non-empty token is rejected, whatever came before or after it. -/
theorem parseAoiTokens_error (pf : List Char → Option ℚ) :
    ∀ (toks : List (List Char)) (parts : List (List Char × ℚ)),
      (∃ kv ∈ toks, kv ≠ [] ∧ badToken pf kv) →
      parseAoiTokens pf toks parts = .error () := by
  intro toks
  induction toks with
  | nil =>
      intro parts h
      simp at h
  | cons kv rest ih =>
      intro parts h
      obtain ⟨kv', hmem, hnemp, hbad⟩ := h
      unfold parseAoiTokens
      rcases List.mem_cons.mp hmem with rfl | hm
      · rw [if_neg hnemp]
        rcases hsp : pySplit '=' kv' with _ | ⟨k, tl⟩
        · rfl
        · rcases tl with _ | ⟨v, tl2⟩
          · rfl
          · rcases tl2 with _ | ⟨w, tl3⟩
            · dsimp only
              rw [hbad k v hsp]
            · rfl
      · by_cases hkv : kv = []
        · rw [if_pos hkv]
          exact ih _ ⟨kv', hm, hnemp, hbad⟩
        · rw [if_neg hkv]
          rcases hsp : pySplit '=' kv with _ | ⟨k, tl⟩
          · rfl
          · rcases tl with _ | ⟨v, tl2⟩
            · rfl
            · rcases tl2 with _ | ⟨w, tl3⟩
              · dsimp only
                cases hpf : pf v with
                | none => rfl
                | some q => exact ih _ ⟨kv', hm, hnemp, hbad⟩
              · rfl

/-- C4 counterexample: `parse_aoi` succeeds on an AOI string missing
three of the four required keys, and on one carrying an unexpected
fifth key — contradicting the claim that a missing or unexpected key
fails with a MalformedAOI error. -/
theorem parse_aoi_keys_cex :
    parse_aoi pyFloat ['n', 'o', 'r', 't', 'h', '=', '1'] =
      .ok [(['n', 'o', 'r', 't', 'h'], 1)] ∧
    parse_aoi pyFloat
        ['n', 'o', 'r', 't', 'h', '=', '1', ';',
         's', 'o', 'u', 't', 'h', '=', '2', ';',
         'e', 'a', 's', 't', '=', '3', ';',
         'w', 'e', 's', 't', '=', '4', ';',
         'b', 'o', 'g', 'u', 's', '=', '5'] =
      .ok [(['n', 'o', 'r', 't', 'h'], 1), (['s', 'o', 'u', 't', 'h'], 2),
           (['e', 'a', 's', 't'], 3), (['w', 'e', 's', 't'], 4),
           (['b', 'o', 'g', 'u', 's'], 5)] := by
  constructor <;>
    simp [parse_aoi, parseAoiTokens, pySplit, pyStrip, pyFloat,
      digitsVal, digitVal, dictSet]

/-- C4 (amended): `parse_aoi` parses any canonical
`north=..;south=..;east=..;west=..` string with parseable values into
the corresponding four-entry AreaOfInterest, and fails whenever some
non-empty token is rejected (no `=` structure or unparseable value);
it performs no key-set validation. -/
theorem parse_aoi_amended :
    (∀ (pf : List Char → Option ℚ) (v1 v2 v3 v4 : List Char)
        (q1 q2 q3 q4 : ℚ),
      '=' ∉ v1 → ';' ∉ v1 → '=' ∉ v2 → ';' ∉ v2 →
      '=' ∉ v3 → ';' ∉ v3 → '=' ∉ v4 → ';' ∉ v4 →
      pf v1 = some q1 → pf v2 = some q2 → pf v3 = some q3 →
      pf v4 = some q4 →
      parse_aoi pf (aoiString v1 v2 v3 v4) =
        .ok [(kNorth, q1), (kSouth, q2), (kEast, q3), (kWest, q4)]) ∧
    (∀ (pf : List Char → Option ℚ) (s : List Char),
      (∃ kv ∈ pySplit ';' s, kv ≠ [] ∧ badToken pf kv) →
      parse_aoi pf s = .error ()) := by
  constructor
  · intro pf v1 v2 v3 v4 q1 q2 q3 q4 he1 hs1 he2 hs2 he3 hs3 he4 hs4
      hq1 hq2 hq3 hq4
    have h1 : ';' ∉ (kNorth ++ '=' :: v1) :=
      not_mem_token (by decide) (by decide) hs1
    have h2 : ';' ∉ (kSouth ++ '=' :: v2) :=
      not_mem_token (by decide) (by decide) hs2
    have h3 : ';' ∉ (kEast ++ '=' :: v3) :=
      not_mem_token (by decide) (by decide) hs3
    have h4 : ';' ∉ (kWest ++ '=' :: v4) :=
      not_mem_token (by decide) (by decide) hs4
    unfold parse_aoi aoiString
    rw [pySplit_append_cons _ h1, pySplit_append_cons _ h2,
      pySplit_append_cons _ h3, pySplit_no_sep h4]
    rw [parseAoiTokens_cons_ok pf kNorth v1 q1 _ _ (by decide) he1 hq1,
      parseAoiTokens_cons_ok pf kSouth v2 q2 _ _ (by decide) he2 hq2,
      parseAoiTokens_cons_ok pf kEast v3 q3 _ _ (by decide) he3 hq3,
      parseAoiTokens_cons_ok pf kWest v4 q4 _ _ (by decide) he4 hq4]
    rfl
  · intro pf s h
    exact parseAoiTokens_error pf _ [] h

/-- C4 witness: the canonical four-key string with values 1, 2, 3, 4
parses into the four bounds, and a keyless token is rejected. -/
theorem parse_aoi_amended_witness :
    parse_aoi pyFloat (aoiString ['1'] ['2'] ['3'] ['4']) =
      .ok [(kNorth, 1), (kSouth, 2), (kEast, 3), (kWest, 4)] ∧
    parse_aoi pyFloat ['x'] = .error () :=
  ⟨parse_aoi_amended.1 pyFloat ['1'] ['2'] ['3'] ['4'] 1 2 3 4
      (by decide) (by decide) (by decide) (by decide)
      (by decide) (by decide) (by decide) (by decide)
      (by simp [pyFloat, pyStrip, pySplit, digitsVal, digitVal])
      (by simp [pyFloat, pyStrip, pySplit, digitsVal, digitVal])
      (by simp [pyFloat, pyStrip, pySplit, digitsVal, digitVal])
      (by simp [pyFloat, pyStrip, pySplit, digitsVal, digitVal]),
   parse_aoi_amended.2 pyFloat ['x']
     ⟨['x'], by decide, by decide, fun k v hkv => by simp [pySplit] at hkv⟩⟩

/-- C8: in every run — for every possible failure point — the emitted
progress milestones are monotonically non-decreasing, drawn from
{5, 25, 45, 65, 90, 100}, and end with 100; the run terminates (last
event is the exit) with code 0 exactly when no stage failed and code 1
otherwise, in both cases after the final 100 milestone. -/
theorem main_progress_exit (fa : Option ℕ) :
    List.Sorted (· ≤ ·) (progressOf (mainTrace fa)) ∧
    (∀ p ∈ progressOf (mainTrace fa), p ∈ [5, 25, 45, 65, 90, 100]) ∧
    (progressOf (mainTrace fa)).getLast? = some 100 ∧
    exitCodesOf (mainTrace fa) = [if fa = none then 0 else 1] ∧
    (mainTrace fa).getLast? = some (Ev.exit (if fa = none then 0 else 1)) := by
  match fa with
  | none => decide
  | some k =>
      rcases Nat.lt_or_ge k 15 with hk | hk
      · interval_cases k <;> decide
      · have htake : successActs.take k = successActs :=
          List.take_of_length_le (by simp [successActs]; omega)
        simp only [mainTrace, htake, if_neg (Option.some_ne_none k)]
        decide

/-- C8 witness at the run failing after three events: its milestones are
sorted, the milestone 5 it emitted is a checkpoint, the last milestone is
100, and it exits with code 1 after the final 100. -/
theorem main_progress_exit_witness :
    List.Sorted (· ≤ ·) (progressOf (mainTrace (some 3))) ∧
    5 ∈ [5, 25, 45, 65, 90, 100] ∧
    (progressOf (mainTrace (some 3))).getLast? = some 100 ∧
    exitCodesOf (mainTrace (some 3)) = [if (some 3 : Option ℕ) = none then 0 else 1] ∧
    (mainTrace (some 3)).getLast? =
      some (Ev.exit (if (some 3 : Option ℕ) = none then 0 else 1)) :=
  ⟨(main_progress_exit (some 3)).1,
   (main_progress_exit (some 3)).2.1 5 (by decide),
   (main_progress_exit (some 3)).2.2.1,
   (main_progress_exit (some 3)).2.2.2.1,
   (main_progress_exit (some 3)).2.2.2.2⟩

end Worker
